import Mathlib

/-!
Verification of the subscription service core (service layer plus handler
date validation) of the EffectiveTask repository.

Modelling conventions:
* A Go `time.Time` produced by `time.Parse("01-2006", s)` is the first day of
  a month at UTC midnight, so such values are in bijection with (year, month)
  pairs and `After`/`Before`/`Equal` on them coincide with lexicographic
  comparison on (year, month).  We model them by the `Bucket` structure.
* Go's zero `time.Time` (the value left behind when a parse error is
  discarded with `_`) is January of year 1, modelled by `zeroTime`.
* Machine integers (`int`, `int64`) are modelled as unbounded `Int`; none of
  the verified properties depends on wrap-around behaviour.
* The repository port is an external collaborator: each repository call is
  modelled by passing its outcome (an `Except` value) as a parameter, and
  `create` additionally records which repository calls were issued.
-/

namespace EffectiveTask

/-- A month bucket: the (year, month) pair identifying a calendar month. -/
structure Bucket where
  year : Int
  month : Int
deriving DecidableEq, Repr

/-- Strict lexicographic order on (year, month); this is what Go's
`Time.Before` computes on two first-of-month instants. -/
def Bucket.lt (a b : Bucket) : Prop :=
  a.year < b.year ∨ (a.year = b.year ∧ a.month < b.month)

instance (a b : Bucket) : Decidable (Bucket.lt a b) :=
  inferInstanceAs (Decidable (_ ∨ _))

/-- Go `a.After(b)` on month-bucket instants. -/
def Bucket.after (a b : Bucket) : Bool := decide (Bucket.lt b a)

/-- Go `a.Before(b)` on month-bucket instants. -/
def Bucket.before (a b : Bucket) : Bool := decide (Bucket.lt a b)

/-- A bucket denotes a real calendar month when its month lies in [1, 12]. -/
def Bucket.isValid (b : Bucket) : Prop := 1 ≤ b.month ∧ b.month ≤ 12

instance (b : Bucket) : Decidable b.isValid :=
  inferInstanceAs (Decidable (_ ∧ _))

/-- Go's zero `time.Time` is January of year 1. -/
def zeroTime : Bucket := ⟨1, 1⟩

/-- `internal/service/utils.go maxDate`: the later of two dates. -/
def maxDate (a b : Bucket) : Bucket := if a.after b then a else b

/-- `internal/service/utils.go minDate`: the earlier of two dates. -/
def minDate (a b : Bucket) : Bucket := if a.before b then a else b

/-- `internal/service/utils.go countMonths`. -/
def countMonths (start fin : Bucket) : Int :=
  if start.after fin then 0
  else (fin.year - start.year) * 12 + (fin.month - start.month) + 1

/-- Go's month-range validation at the end of `time.Parse`: the month must be
in [1, 12], the day (always 1 here) needs no check. -/
def mkBucket (y m : Int) : Option Bucket :=
  if 1 ≤ m ∧ m ≤ 12 then some ⟨y, m⟩ else none

/-- Go `time.Parse("01-2006", s)`: a zero-padded two-digit month ("01"),
a literal dash, and a four-digit year ("2006"); the whole input must be
consumed and the month must be in range. -/
def timeParseMY (s : String) : Option Bucket :=
  match s.toList with
  | [m1, m2, c, y1, y2, y3, y4] =>
    if c = '-' ∧ m1.isDigit ∧ m2.isDigit ∧
        y1.isDigit ∧ y2.isDigit ∧ y3.isDigit ∧ y4.isDigit then
      mkBucket
        (1000 * ((y1.toNat : Int) - 48) + 100 * ((y2.toNat : Int) - 48) +
          10 * ((y3.toNat : Int) - 48) + ((y4.toNat : Int) - 48))
        (10 * ((m1.toNat : Int) - 48) + ((m2.toNat : Int) - 48))
    else none
  | _ => none

/-- Discarding the parse error with `_` in Go leaves the zero time when the
parse fails (`subStart, _ := time.Parse(layout, sub.StartDate)`). -/
def parseOrZero (s : String) : Bucket := (timeParseMY s).getD zeroTime

/-- The regular expression `^(0[1-9]|1[0-2])-\d.4$` (with a count of exactly
four year digits) shared by handler and service for MM-YYYY validation. -/
def monthYearRegexMatch (s : String) : Bool :=
  match s.toList with
  | [m1, m2, c, y1, y2, y3, y4] =>
    decide (c = '-') &&
      ((decide (m1 = '0') && decide ('1' ≤ m2) && decide (m2 ≤ '9')) ||
        (decide (m1 = '1') && decide ('0' ≤ m2) && decide (m2 ≤ '2'))) &&
      y1.isDigit && y2.isDigit && y3.isDigit && y4.isDigit
  | _ => false

/-- The fields of `domain.Subscription` read by the service layer. -/
structure Sub where
  serviceName : String
  price : Int
  startDate : String
  endDate : Option String
deriving DecidableEq, Repr

/-- The effective end used in the `GetTotalCost` loop: the parsed stored
end date when present (zero time on a discarded parse failure), else the
query's `reqTo`. -/
def effectiveEnd (reqTo : Bucket) (sub : Sub) : Bucket :=
  match sub.endDate with
  | some e => parseOrZero e
  | none => reqTo

/-- The per-subscription month count of the `GetTotalCost` loop:
`countMonths(maxDate(reqFrom, subStart), minDate(reqTo, subEnd))`. -/
def monthsBilled (reqFrom reqTo : Bucket) (sub : Sub) : Int :=
  countMonths (maxDate reqFrom (parseOrZero sub.startDate))
    (minDate reqTo (effectiveEnd reqTo sub))

/-- The line cost `int64(sub.Price) * int64(months)`. -/
def lineCost (reqFrom reqTo : Bucket) (sub : Sub) : Int :=
  sub.price * monthsBilled reqFrom reqTo sub

/-- The detail entry `fmt.Sprintf("%s: %d", sub.ServiceName, cost)`. -/
def detailLine (sub : Sub) (cost : Int) : String :=
  sub.serviceName ++ ": " ++ toString cost

/-- The accumulation loop of `GetTotalCost` (`totalCost += cost` and
`details = append(details, ...)` for every subscription with `months > 0`). -/
def costLoopAux (reqFrom reqTo : Bucket) (totalCost : Int)
    (details : List String) : List Sub → Int × List String
  | [] => (totalCost, details)
  | sub :: rest =>
    let months := monthsBilled reqFrom reqTo sub
    if 0 < months then
      costLoopAux reqFrom reqTo (totalCost + sub.price * months)
        (details ++ [detailLine sub (sub.price * months)]) rest
    else
      costLoopAux reqFrom reqTo totalCost details rest

/-- Error kinds distinguishable by a caller of the service `GetTotalCost`. -/
inductive GetTotalCostError
  | badFromFormat
  | badToFormat
  | storageFailure
deriving DecidableEq, Repr

/-- `internal/service/subscription.go GetTotalCost`: parse `from`, parse
`to`, fetch the overlapping subscriptions from the repository (outcome
passed in as `repoResult`), then run the accumulation loop.  The code
performs no comparison between the two parsed dates. -/
def getTotalCost (repoResult : Except Unit (List Sub))
    (fromStr toStr : String) : Except GetTotalCostError (Int × List String) :=
  match timeParseMY fromStr with
  | none => Except.error GetTotalCostError.badFromFormat
  | some reqFrom =>
    match timeParseMY toStr with
    | none => Except.error GetTotalCostError.badToFormat
    | some reqTo =>
      match repoResult with
      | Except.error _ => Except.error GetTotalCostError.storageFailure
      | Except.ok subs => Except.ok (costLoopAux reqFrom reqTo 0 [] subs)

/-- Error kinds distinguishable by a caller of the service `Extend`. -/
inductive ExtendError
  | invalidDateFormat
  | negativePrice
  | notFound
  | internalParseError
  | pastExtension
  | endBeforeStart
  | nonAdvancing
  | storageFailure
deriving DecidableEq, Repr

/-- The arguments the service `Extend` hands to `repo.Extend` on success. -/
structure ExtendPersist where
  endDateStr : String
  price : Int
deriving DecidableEq, Repr

/-- The validation part of `internal/service/subscription.go Extend`, up to
(but not including) the `repo.Extend` persistence call: regex check on the
new end date, price check, load by id (outcome passed as `repoSub`),
parse of the stored start date and the new end date, the past / before-start
/ non-advancing checks.  `currentMonth` is the month bucket of `time.Now()`.
A returned `Except.ok` value means control reached `repo.Extend` with
exactly those arguments; any `Except.error` means it did not. -/
def extendCheck (repoSub : Except Unit Sub) (currentMonth : Bucket)
    (newEndDateStr : String) (newPrice : Int) :
    Except ExtendError ExtendPersist :=
  if monthYearRegexMatch newEndDateStr = false then
    Except.error ExtendError.invalidDateFormat
  else if newPrice < 0 then
    Except.error ExtendError.negativePrice
  else
    match repoSub with
    | Except.error _ => Except.error ExtendError.notFound
    | Except.ok sub =>
      match timeParseMY sub.startDate, timeParseMY newEndDateStr with
      | some startDate, some newEndDate =>
        if newEndDate.before currentMonth then
          Except.error ExtendError.pastExtension
        else if newEndDate.before startDate then
          Except.error ExtendError.endBeforeStart
        else
          match sub.endDate with
          | some oldStr =>
            let oldEndDate := parseOrZero oldStr
            if newEndDate.before oldEndDate || newEndDate == oldEndDate then
              Except.error ExtendError.nonAdvancing
            else
              Except.ok ⟨newEndDateStr, newPrice⟩
          | none => Except.ok ⟨newEndDateStr, newPrice⟩
      | _, _ => Except.error ExtendError.internalParseError

/-- The full service `Extend`: validation followed by the `repo.Extend`
persistence call, whose outcome is the parameter `updateResult`. -/
def extend (repoSub : Except Unit Sub) (updateResult : Except Unit Unit)
    (currentMonth : Bucket) (newEndDateStr : String) (newPrice : Int) :
    Except ExtendError ExtendPersist :=
  match extendCheck repoSub currentMonth newEndDateStr newPrice with
  | Except.error e => Except.error e
  | Except.ok p =>
    match updateResult with
    | Except.error _ => Except.error ExtendError.storageFailure
    | Except.ok _ => Except.ok p

/-- Error kinds distinguishable by a caller of the service `Create`. -/
inductive CreateError
  | negativePrice
  | alreadyExists
  | storageFailure
deriving DecidableEq, Repr

/-- Repository calls the service `Create` can issue, in order. -/
inductive RepoCall
  | existsCall
  | createCall
deriving DecidableEq, Repr

/-- `internal/service/subscription.go Create`: price check, then
`repo.Exists` (outcome `existsResult`), then `repo.Create` (outcome
`createResult`).  The second component records the repository calls
actually issued. -/
def create (existsResult : Except Unit Bool) (createResult : Except Unit Int)
    (sub : Sub) : Except CreateError Int × List RepoCall :=
  if sub.price < 0 then
    (Except.error CreateError.negativePrice, [])
  else
    match existsResult with
    | Except.error _ =>
      (Except.error CreateError.storageFailure, [RepoCall.existsCall])
    | Except.ok true =>
      (Except.error CreateError.alreadyExists, [RepoCall.existsCall])
    | Except.ok false =>
      match createResult with
      | Except.error _ =>
        (Except.error CreateError.storageFailure,
          [RepoCall.existsCall, RepoCall.createCall])
      | Except.ok id =>
        (Except.ok id, [RepoCall.existsCall, RepoCall.createCall])

/-- `internal/handler/utils.go isInvalidDate`: the empty string passes,
otherwise the regex and then `time.Parse` must both accept. -/
def isInvalidDate (dateStr : String) : Bool :=
  if dateStr = "" then false
  else if monthYearRegexMatch dateStr = false then true
  else (timeParseMY dateStr).isNone

/-- Rejection reasons of the handler `createSubscription`, in source order. -/
inductive CreateReject
  | userIdRequired
  | badServiceName
  | negPrice
  | badStartDate
  | badEndDate
  | badDateValues
  | endBeforeStartDate
deriving DecidableEq, Repr

/-- The fields of the decoded request body read by the handler
`createSubscription`; `userIdIsNil` models `input.UserID == uuid.Nil`. -/
structure CreateRequest where
  userIdIsNil : Bool
  serviceName : String
  price : Int
  startDate : String
  endDate : Option String
deriving Repr

/-- Go `strings.TrimSpace`, modelled on the character list: leading and
trailing whitespace characters are removed. -/
def trimSpace (s : String) : String :=
  ⟨((s.toList.dropWhile Char.isWhitespace).reverse.dropWhile
      Char.isWhitespace).reverse⟩

/-- The validation sequence of `internal/handler/subscription.go
createSubscription` before it calls the service: `none` means every check
passed and the service `Create` is invoked with the request as is. -/
def createSubscriptionValidate (req : CreateRequest) : Option CreateReject :=
  if req.userIdIsNil then some CreateReject.userIdRequired
  else if trimSpace req.serviceName = "" ∨ 100 < req.serviceName.utf8ByteSize
  then
    some CreateReject.badServiceName
  else if req.price < 0 then some CreateReject.negPrice
  else if isInvalidDate req.startDate then some CreateReject.badStartDate
  else
    match req.endDate with
    | none => none
    | some e =>
      if isInvalidDate e then some CreateReject.badEndDate
      else
        match timeParseMY req.startDate, timeParseMY e with
        | some startDate, some endDate =>
          if endDate.before startDate then
            some CreateReject.endBeforeStartDate
          else none
        | _, _ => some CreateReject.badDateValues

/-! Helper lemmas about the date utilities. -/

theorem countMonths_of_after (a b : Bucket) (h : Bucket.lt b a) :
    countMonths a b = 0 := by
  simp [countMonths, Bucket.after, h]

theorem countMonths_of_not_after (a b : Bucket) (h : ¬ Bucket.lt b a) :
    countMonths a b = (b.year - a.year) * 12 + (b.month - a.month) + 1 := by
  simp [countMonths, Bucket.after, h]

theorem Bucket.lt_irrefl (a : Bucket) : ¬ Bucket.lt a a := by
  simp [Bucket.lt]

theorem countMonths_self (a : Bucket) : countMonths a a = 1 := by
  rw [countMonths_of_not_after a a (Bucket.lt_irrefl a)]
  ring

theorem countMonths_nonneg (a b : Bucket) (ha : a.isValid) (hb : b.isValid) :
    0 ≤ countMonths a b := by
  by_cases h : Bucket.lt b a
  · rw [countMonths_of_after a b h]
  · rw [countMonths_of_not_after a b h]
    obtain ⟨ha1, ha2⟩ := ha
    obtain ⟨hb1, hb2⟩ := hb
    unfold Bucket.lt at h
    omega

theorem mkBucket_valid (y m : Int) (b : Bucket) (h : mkBucket y m = some b) :
    b.isValid := by
  unfold mkBucket at h
  split at h
  case isTrue hc =>
    cases h
    exact ⟨hc.1, hc.2⟩
  case isFalse hc => cases h

theorem timeParseMY_valid (s : String) (b : Bucket)
    (h : timeParseMY s = some b) : b.isValid := by
  unfold timeParseMY at h
  split at h
  · split at h
    · exact mkBucket_valid _ _ _ h
    · cases h
  · cases h

theorem zeroTime_valid : zeroTime.isValid := by
  constructor <;> simp [zeroTime]

theorem parseOrZero_valid (s : String) : (parseOrZero s).isValid := by
  unfold parseOrZero
  cases h : timeParseMY s with
  | none => simpa using zeroTime_valid
  | some b => simpa using timeParseMY_valid s b h

theorem maxDate_valid (a b : Bucket) (ha : a.isValid) (hb : b.isValid) :
    (maxDate a b).isValid := by
  unfold maxDate
  split <;> assumption

theorem minDate_valid (a b : Bucket) (ha : a.isValid) (hb : b.isValid) :
    (minDate a b).isValid := by
  unfold minDate
  split <;> assumption

theorem effectiveEnd_valid (t : Bucket) (ht : t.isValid) (sub : Sub) :
    (effectiveEnd t sub).isValid := by
  unfold effectiveEnd
  cases sub.endDate with
  | none => exact ht
  | some e => exact parseOrZero_valid e

theorem monthsBilled_nonneg (f t : Bucket) (hf : f.isValid) (ht : t.isValid)
    (sub : Sub) : 0 ≤ monthsBilled f t sub :=
  countMonths_nonneg _ _
    (maxDate_valid f _ hf (parseOrZero_valid sub.startDate))
    (minDate_valid t _ ht (effectiveEnd_valid t ht sub))

theorem not_lt_maxDate_left (a b : Bucket) : ¬ Bucket.lt (maxDate a b) a := by
  unfold maxDate Bucket.after
  split
  · exact Bucket.lt_irrefl a
  · next h => simpa using h

theorem not_lt_left_minDate (a b : Bucket) : ¬ Bucket.lt a (minDate a b) := by
  unfold minDate Bucket.before
  split
  · exact Bucket.lt_irrefl a
  · next h => simpa using h

/-- When the query period is inverted every subscription is billed for zero
months. -/
theorem months_zero_of_inverted (f t : Bucket) (hlt : Bucket.lt t f)
    (sub : Sub) : monthsBilled f t sub = 0 := by
  unfold monthsBilled
  apply countMonths_of_after
  have h1 := not_lt_left_minDate t (effectiveEnd t sub)
  have h2 := not_lt_maxDate_left f (parseOrZero sub.startDate)
  unfold Bucket.lt at h1 h2 hlt ⊢
  omega

theorem costLoopAux_cons (f t : Bucket) (acc : Int) (ds : List String)
    (sub : Sub) (rest : List Sub) :
    costLoopAux f t acc ds (sub :: rest) =
      if 0 < monthsBilled f t sub then
        costLoopAux f t (acc + sub.price * monthsBilled f t sub)
          (ds ++ [detailLine sub (sub.price * monthsBilled f t sub)]) rest
      else costLoopAux f t acc ds rest := rfl

/-- Characterisation of the accumulation loop: the subscriptions with a
positive month count contribute, in storage order, a line and a cost. -/
theorem costLoopAux_spec (f t : Bucket) (subs : List Sub) (acc : Int)
    (ds : List String) :
    costLoopAux f t acc ds subs =
      (acc + ((subs.filter fun sub => decide (0 < monthsBilled f t sub)).map
          (lineCost f t)).sum,
        ds ++ (subs.filter fun sub => decide (0 < monthsBilled f t sub)).map
          fun sub => detailLine sub (lineCost f t sub)) := by
  induction subs generalizing acc ds with
  | nil => simp [costLoopAux]
  | cons sub rest ih =>
    rw [costLoopAux_cons]
    by_cases h : 0 < monthsBilled f t sub
    · have hfil : (sub :: rest).filter
          (fun s => decide (0 < monthsBilled f t s)) =
          sub :: rest.filter (fun s => decide (0 < monthsBilled f t s)) := by
        simp [List.filter_cons, h]
      rw [if_pos h, ih, hfil]
      simp [lineCost, add_assoc]
    · have hfil : (sub :: rest).filter
          (fun s => decide (0 < monthsBilled f t s)) =
          rest.filter (fun s => decide (0 < monthsBilled f t s)) := by
        simp [List.filter_cons, h]
      rw [if_neg h, ih, hfil]

/-! Claim theorems. -/

/-- C1: `countMonths` (the `inclusiveMonthSpan` utility) computes, for any
two month buckets `start` and `end`, the value
`(end.year-start.year)*12 + (end.month-start.month) + 1` when `start` is not
after `end`, and `0` when `start` is after `end`; for every valid month
bucket `a` it returns `1` on `(a, a)`, and it never returns a negative
value. -/
theorem claim_countMonths (a b : Bucket) (ha : a.isValid) (hb : b.isValid) :
    (¬ Bucket.lt b a →
        countMonths a b = (b.year - a.year) * 12 + (b.month - a.month) + 1)
    ∧ (Bucket.lt b a → countMonths a b = 0)
    ∧ countMonths a a = 1
    ∧ 0 ≤ countMonths a b :=
  ⟨countMonths_of_not_after a b, countMonths_of_after a b,
    countMonths_self a, countMonths_nonneg a b ha hb⟩

/-- C1 witness: a concrete instantiation, `countMonths 01-2026 12-2026 = 12`
via the formula conjunct. -/
theorem claim_countMonths_witness : countMonths ⟨2026, 1⟩ ⟨2026, 12⟩ = 12 := by
  have h := claim_countMonths ⟨2026, 1⟩ ⟨2026, 12⟩ (by decide) (by decide)
  rw [h.1 (by decide)]
  norm_num

/-- C2: for every list of candidate subscriptions returned by storage,
`GetTotalCost` returns a total equal to the sum of the per-line costs of its
detail lines; each line cost is `price * monthsBilled` in exact integer
arithmetic, a `"name: cost"` line is appended exactly for the subscriptions
with a nonzero billed-month count, and the lines appear in storage order. -/
theorem claim_getTotalCost_itemized (fromStr toStr : String) (f t : Bucket)
    (subs : List Sub) (hf : timeParseMY fromStr = some f)
    (ht : timeParseMY toStr = some t) :
    getTotalCost (Except.ok subs) fromStr toStr =
      Except.ok
        (((subs.filter fun sub => decide (monthsBilled f t sub ≠ 0)).map
            (lineCost f t)).sum,
          (subs.filter fun sub => decide (monthsBilled f t sub ≠ 0)).map
            fun sub => detailLine sub (lineCost f t sub)) := by
  have hfil : (subs.filter fun sub => decide (monthsBilled f t sub ≠ 0)) =
      (subs.filter fun sub => decide (0 < monthsBilled f t sub)) := by
    apply List.filter_congr
    intro sub _
    have h0 : 0 ≤ monthsBilled f t sub :=
      monthsBilled_nonneg f t (timeParseMY_valid _ _ hf)
        (timeParseMY_valid _ _ ht) sub
    simp only [decide_eq_decide]
    omega
  rw [hfil]
  unfold getTotalCost
  rw [hf, ht]
  show Except.ok (costLoopAux f t 0 [] subs) = _
  rw [costLoopAux_spec]
  simp

/-- C2 witness: one subscription covering the whole window
(start 01-2026, end 12-2026, price 500, queried over 01-2026..12-2026)
yields total 6000 with the single line "Spotify Premium: 6000". -/
theorem claim_getTotalCost_itemized_witness :
    getTotalCost (Except.ok [⟨"Spotify Premium", 500, "01-2026",
        some "12-2026"⟩]) "01-2026" "12-2026" =
      Except.ok (6000, ["Spotify Premium: 6000"]) := by
  rw [claim_getTotalCost_itemized "01-2026" "12-2026" ⟨2026, 1⟩ ⟨2026, 12⟩
    [⟨"Spotify Premium", 500, "01-2026", some "12-2026"⟩] rfl rfl]
  rfl

/-- C3: in `GetTotalCost`, for every candidate subscription whose end date is
null, the effective end of the overlap computation is the query's `periodTo`,
so such a subscription is billed for
`countMonths(max(periodFrom, start), periodTo)` — the months from
`max(periodFrom, start_date)` through `periodTo` inclusive. -/
theorem claim_openEnded_effectiveEnd (f t s : Bucket) (sub : Sub)
    (hend : sub.endDate = none) (hstart : timeParseMY sub.startDate = some s) :
    effectiveEnd t sub = t
    ∧ monthsBilled f t sub = countMonths (maxDate f s) t := by
  have he : effectiveEnd t sub = t := by
    unfold effectiveEnd
    rw [hend]
  refine ⟨he, ?_⟩
  unfold monthsBilled
  rw [he]
  have hs : parseOrZero sub.startDate = s := by
    unfold parseOrZero
    rw [hstart]
    rfl
  rw [hs]
  have hm : minDate t t = t := by
    unfold minDate
    split <;> rfl
  rw [hm]

/-- C3 witness: a subscription with start 06-2026 and no end date, queried
over 01-2026..12-2026, is billed 7 months. -/
theorem claim_openEnded_effectiveEnd_witness :
    monthsBilled ⟨2026, 1⟩ ⟨2026, 12⟩ ⟨"Netflix", 100, "06-2026", none⟩ = 7 := by
  have h := claim_openEnded_effectiveEnd ⟨2026, 1⟩ ⟨2026, 12⟩ ⟨2026, 6⟩
    ⟨"Netflix", 100, "06-2026", none⟩ rfl rfl
  rw [h.2]
  decide

/-- C4 counterexample: `GetTotalCost` performs no comparison of the two
parsed period bounds, so with `from = 02-2026` and `to = 01-2026` (the `to`
bucket strictly before the `from` bucket) it does not fail at all: it
returns success with total 0 and no detail lines instead of an
invalid-date-range error. -/
theorem claim_rangeCheck_cex :
    getTotalCost (Except.ok [⟨"Spotify Premium", 500, "01-2026", none⟩])
      "02-2026" "01-2026" = Except.ok (0, []) := rfl

/-- C4 amended: `GetTotalCost` does not validate the period order; whenever
both bounds parse, the repository call succeeds and the parsed `to` bucket
strictly precedes the parsed `from` bucket, the call succeeds with total 0
and an empty detail list (every subscription is billed zero months). -/
theorem claim_rangeCheck_amended (fromStr toStr : String) (f t : Bucket)
    (subs : List Sub) (hf : timeParseMY fromStr = some f)
    (ht : timeParseMY toStr = some t) (hlt : Bucket.lt t f) :
    getTotalCost (Except.ok subs) fromStr toStr = Except.ok (0, []) := by
  unfold getTotalCost
  rw [hf, ht]
  show Except.ok (costLoopAux f t 0 [] subs) = _
  have hz : costLoopAux f t 0 [] subs = (0, []) := by
    induction subs with
    | nil => rfl
    | cons sub rest ih =>
      rw [costLoopAux_cons, months_zero_of_inverted f t hlt sub]
      simpa using ih
  rw [hz]

/-- C4 amended witness: an inverted window 03-2026..01-2026 over one
subscription yields success with total 0 and no lines. -/
theorem claim_rangeCheck_amended_witness :
    getTotalCost (Except.ok [⟨"Yandex Plus", 300, "01-2026", none⟩])
      "03-2026" "01-2026" = Except.ok (0, []) :=
  claim_rangeCheck_amended "03-2026" "01-2026" ⟨2026, 3⟩ ⟨2026, 1⟩
    [⟨"Yandex Plus", 300, "01-2026", none⟩] rfl rfl (by decide)

/-- C5 counterexample: the price check runs before the past-month check, so
`Extend` with a well-formed new end date lying strictly before the current
month but with `newPrice = -1` fails with the negative-price error, not the
past-extension error — refuting "always fails with PastExtension for any
subscription state" with the price wildcard. -/
theorem claim_pastExtension_cex :
    extend (Except.ok ⟨"Spotify Premium", 500, "01-2026", none⟩)
        (Except.ok ()) ⟨2026, 5⟩ "03-2026" (-1) =
      Except.error ExtendError.negativePrice
    ∧ ExtendError.negativePrice ≠ ExtendError.pastExtension :=
  ⟨rfl, by decide⟩

/-- C5 amended: provided the new price is non-negative, the subscription is
found and its stored start date parses, `Extend` with a well-formed new end
date whose bucket is strictly before the current month fails with the
past-extension error for every persistence outcome — it never reaches the
persistence call. -/
theorem claim_pastExtension_amended (sub : Sub) (upd : Except Unit Unit)
    (now ne st : Bucket) (s : String) (p : Int)
    (hregex : monthYearRegexMatch s = true) (hp : 0 ≤ p)
    (hst : timeParseMY sub.startDate = some st)
    (hne : timeParseMY s = some ne) (hpast : Bucket.lt ne now) :
    extend (Except.ok sub) upd now s p =
      Except.error ExtendError.pastExtension := by
  have hp' : ¬ p < 0 := by omega
  simp [extend, extendCheck, hregex, hp', hst, hne, Bucket.before, hpast]

/-- C5 amended witness: with the current month 05-2026, extending to 03-2026
at price 600 fails with the past-extension error. -/
theorem claim_pastExtension_amended_witness :
    extend (Except.ok ⟨"Spotify Premium", 500, "01-2026", none⟩)
        (Except.ok ()) ⟨2026, 5⟩ "03-2026" 600 =
      Except.error ExtendError.pastExtension :=
  claim_pastExtension_amended ⟨"Spotify Premium", 500, "01-2026", none⟩
    (Except.ok ()) ⟨2026, 5⟩ ⟨2026, 3⟩ ⟨2026, 1⟩ "03-2026" 600
    rfl (by omega) rfl rfl (by decide)

/-- C6 counterexample: the past-month check runs before the non-advancing
check, so on a subscription with existing end date 12-2026, extending to
12-2026 when the current month is already 03-2027 fails with the
past-extension error, not the non-advancing error — refuting "Extend with a
newEndDate equal to or before the existing end_date fails with
NonAdvancingExtension" as a universal statement. -/
theorem claim_nonAdvancing_cex :
    extend (Except.ok ⟨"Netflix", 500, "01-2026", some "12-2026"⟩)
        (Except.ok ()) ⟨2027, 3⟩ "12-2026" 600 =
      Except.error ExtendError.pastExtension
    ∧ ExtendError.pastExtension ≠ ExtendError.nonAdvancing :=
  ⟨rfl, by decide⟩

/-- C6 amended: for a found subscription with an existing, parseable end
date, a non-negative price and a well-formed new end date that is neither in
a past month nor before the parsed start date: if the new end bucket is
equal to or before the existing end bucket, `Extend` fails with the
non-advancing error for every persistence outcome (the subscription is left
unchanged); if it is strictly after, `Extend` succeeds and hands exactly the
new end date string and the new price to the persistence call. -/
theorem claim_nonAdvancing_amended (sub : Sub) (now ne st old : Bucket)
    (oldStr s : String) (p : Int)
    (hregex : monthYearRegexMatch s = true) (hp : 0 ≤ p)
    (hst : timeParseMY sub.startDate = some st)
    (hne : timeParseMY s = some ne)
    (hend : sub.endDate = some oldStr) (hold : timeParseMY oldStr = some old)
    (hnotpast : ¬ Bucket.lt ne now) (hnotbefore : ¬ Bucket.lt ne st) :
    ((Bucket.lt ne old ∨ ne = old) → ∀ upd,
        extend (Except.ok sub) upd now s p =
          Except.error ExtendError.nonAdvancing)
    ∧ (Bucket.lt old ne →
        extend (Except.ok sub) (Except.ok ()) now s p =
          Except.ok ⟨s, p⟩) := by
  have hp' : ¬ p < 0 := by omega
  have holdz : parseOrZero oldStr = old := by
    unfold parseOrZero
    rw [hold]
    rfl
  constructor
  · intro hle upd
    cases hle with
    | inl h =>
      simp [extend, extendCheck, hregex, hp', hst, hne, hend, holdz,
        Bucket.before, hnotpast, hnotbefore, h]
    | inr h =>
      subst h
      simp [extend, extendCheck, hregex, hp', hst, hne, hend, holdz,
        Bucket.before, hnotpast, hnotbefore]
  · intro hgt
    have h1 : ¬ Bucket.lt ne old := by
      unfold Bucket.lt at hgt ⊢
      omega
    have h2 : ¬ (ne = old) := by
      intro hq
      rw [hq] at hgt
      exact Bucket.lt_irrefl old hgt
    simp [extend, extendCheck, hregex, hp', hst, hne, hend, holdz,
      Bucket.before, hnotpast, hnotbefore, h1, h2]

/-- C6 amended witness: with current month 01-2026, start 01-2026 and
existing end 12-2026, extending to 12-2026 fails with the non-advancing
error while extending to 01-2027 succeeds and persists ("01-2027", 600). -/
theorem claim_nonAdvancing_amended_witness :
    extend (Except.ok ⟨"Netflix", 500, "01-2026", some "12-2026"⟩)
        (Except.ok ()) ⟨2026, 1⟩ "12-2026" 600 =
      Except.error ExtendError.nonAdvancing
    ∧ extend (Except.ok ⟨"Netflix", 500, "01-2026", some "12-2026"⟩)
        (Except.ok ()) ⟨2026, 1⟩ "01-2027" 600 =
      Except.ok ⟨"01-2027", 600⟩ :=
  ⟨(claim_nonAdvancing_amended ⟨"Netflix", 500, "01-2026", some "12-2026"⟩
      ⟨2026, 1⟩ ⟨2026, 12⟩ ⟨2026, 1⟩ ⟨2026, 12⟩ "12-2026" "12-2026" 600
      rfl (by omega) rfl rfl rfl rfl (by decide) (by decide)).1
      (Or.inr rfl) (Except.ok ()),
    (claim_nonAdvancing_amended ⟨"Netflix", 500, "01-2026", some "12-2026"⟩
      ⟨2026, 1⟩ ⟨2027, 1⟩ ⟨2026, 1⟩ ⟨2026, 12⟩ "12-2026" "01-2027" 600
      rfl (by omega) rfl rfl rfl rfl (by decide) (by decide)).2 (by decide)⟩

/-- C7: `Create` with a negative price fails with the negative-price error
for every repository outcome and issues no repository call at all (no
existence check, no write); with a non-negative price it fails with
already-exists exactly when the existence check reports `true`, and when the
existence check reports `false` and the write succeeds it returns the
assigned id after issuing the existence check and the write. -/
theorem claim_create_spec (er : Except Unit Bool) (cr : Except Unit Int)
    (sub : Sub) :
    (sub.price < 0 →
        create er cr sub = (Except.error CreateError.negativePrice, []))
    ∧ (0 ≤ sub.price →
        ((create er cr sub).1 = Except.error CreateError.alreadyExists ↔
          er = Except.ok true))
    ∧ (0 ≤ sub.price → ∀ id, er = Except.ok false → cr = Except.ok id →
        create er cr sub =
          (Except.ok id, [RepoCall.existsCall, RepoCall.createCall])) := by
  refine ⟨?_, ?_, ?_⟩
  · intro h
    simp [create, h]
  · intro h
    have h' : ¬ sub.price < 0 := by omega
    cases er with
    | error e => simp [create, h']
    | ok b =>
      cases b with
      | true => simp [create, h']
      | false =>
        cases cr with
        | error e => simp [create, h']
        | ok id => simp [create, h']
  · intro h id he hc
    subst he
    subst hc
    have h' : ¬ sub.price < 0 := by omega
    simp [create, h']

/-- C7 witness: price -1 fails with the negative-price error without
touching the repository (even when both repository outcomes would be
failures), and price 500 with a negative existence check persists and
returns the assigned id 7. -/
theorem claim_create_spec_witness :
    create (Except.error ()) (Except.error ())
        ⟨"Spotify Premium", -1, "01-2026", none⟩ =
      (Except.error CreateError.negativePrice, [])
    ∧ create (Except.ok false) (Except.ok 7)
        ⟨"Spotify Premium", 500, "01-2026", none⟩ =
      (Except.ok 7, [RepoCall.existsCall, RepoCall.createCall]) :=
  ⟨(claim_create_spec (Except.error ()) (Except.error ())
      ⟨"Spotify Premium", -1, "01-2026", none⟩).1 (by decide),
    (claim_create_spec (Except.ok false) (Except.ok 7)
      ⟨"Spotify Premium", 500, "01-2026", none⟩).2.2 (by decide) 7 rfl rfl⟩

/-- C8 counterexample: the service-level `Create` performs no date check, so
it persists a subscription whose end date 01-2026 is strictly before its
start date 05-2026 (the write is issued and the assigned id returned) —
refuting "Create never persists a subscription with end_date before
start_date" for the exposed service operation. -/
theorem claim_invariant_cex :
    create (Except.ok false) (Except.ok 1)
        ⟨"Netflix", 100, "05-2026", some "01-2026"⟩ =
      (Except.ok 1, [RepoCall.existsCall, RepoCall.createCall])
    ∧ Bucket.lt (parseOrZero "01-2026") (parseOrZero "05-2026") :=
  ⟨rfl, by decide⟩

/-- C8 amended: the end-before-start invariant is enforced at the HTTP
boundary rather than in the service `Create`: whenever the handler's
`createSubscription` validation passes with an end date present, the parsed
end bucket is not before the parsed start bucket; and whenever the service
`Extend` validation reaches the persistence call, the parsed new end bucket
is not before the parsed stored start bucket.  Subscriptions persisted
through the handler therefore satisfy the invariant, while the service-level
`Create` alone does not check it. -/
theorem claim_invariant_amended (req : CreateRequest) (e : String)
    (sd ed : Bucket) (hv : createSubscriptionValidate req = none)
    (hende : req.endDate = some e) (hsd : timeParseMY req.startDate = some sd)
    (hed : timeParseMY e = some ed) :
    (¬ Bucket.lt ed sd)
    ∧ (∀ (sub : Sub) (now : Bucket) (s : String) (p : Int)
        (payload : ExtendPersist) (st ne : Bucket),
        timeParseMY sub.startDate = some st → timeParseMY s = some ne →
        extendCheck (Except.ok sub) now s p = Except.ok payload →
        ¬ Bucket.lt ne st) := by
  constructor
  · intro hlt
    unfold createSubscriptionValidate at hv
    rw [hende] at hv
    simp [hsd, hed, Bucket.before, hlt] at hv
    split_ifs at hv
  · intro sub now s p payload st ne hst hne hok
    intro hlt
    unfold extendCheck at hok
    simp [hst, hne, Bucket.before, hlt] at hok
    split_ifs at hok

/-- C8 amended witness: a request with start 01-2026 and end 12-2026 passes
the handler validation, and indeed 12-2026 is not before 01-2026. -/
theorem claim_invariant_amended_witness :
    ¬ Bucket.lt ⟨2026, 12⟩ ⟨2026, 1⟩ :=
  (claim_invariant_amended ⟨false, "Netflix", 100, "01-2026", some "12-2026"⟩
    "12-2026" ⟨2026, 1⟩ ⟨2026, 12⟩ (by decide) rfl rfl rfl).1

/-- C9 counterexample: a stored start date that fails to parse ("garbage")
is silently discarded inside `GetTotalCost`: the call still succeeds, the
zero time is used as the subscription start, and the subscription is billed
over the whole window (3 months at price 10) — the failure is replaced by a
default value instead of being surfaced. -/
theorem claim_noSwallow_cex :
    timeParseMY "garbage" = none
    ∧ getTotalCost (Except.ok [⟨"Netflix", 10, "garbage", none⟩])
        "01-2026" "03-2026" = Except.ok (30, ["Netflix: 30"]) :=
  ⟨rfl, rfl⟩

/-- C9 amended: input-format failures and repository failures are surfaced
as distinguishable errors, but parse failures of stored subscription dates
are not: whenever both query bounds parse, `GetTotalCost` on a successful
repository result returns success no matter what the stored date strings
contain; an unparseable stored date is silently replaced by the zero time
(January of year 1); and in `Extend` an unparseable stored end date makes
the non-advancing check pass vacuously, so the extension succeeds. -/
theorem claim_noSwallow_amended (fromStr toStr : String) (f t : Bucket)
    (subs : List Sub) (hf : timeParseMY fromStr = some f)
    (ht : timeParseMY toStr = some t) :
    (∃ r, getTotalCost (Except.ok subs) fromStr toStr = Except.ok r)
    ∧ (∀ s : String, timeParseMY s = none → parseOrZero s = zeroTime)
    ∧ (∀ (sub : Sub) (now st ne : Bucket) (oldStr s : String) (p : Int),
        monthYearRegexMatch s = true → 0 ≤ p →
        timeParseMY sub.startDate = some st → timeParseMY s = some ne →
        sub.endDate = some oldStr → timeParseMY oldStr = none →
        ¬ Bucket.lt ne now → ¬ Bucket.lt ne st → Bucket.lt zeroTime ne →
        extendCheck (Except.ok sub) now s p = Except.ok ⟨s, p⟩) := by
  refine ⟨⟨costLoopAux f t 0 [] subs, ?_⟩, ?_, ?_⟩
  · unfold getTotalCost
    rw [hf, ht]
  · intro s hs
    unfold parseOrZero
    rw [hs]
    rfl
  · intro sub now st ne oldStr s p hregex hp hst hne hend hold hnotpast
      hnotbefore hzlt
    have hp' : ¬ p < 0 := by omega
    have holdz : parseOrZero oldStr = zeroTime := by
      unfold parseOrZero
      rw [hold]
      rfl
    have h1 : ¬ Bucket.lt ne zeroTime := by
      unfold Bucket.lt at hzlt ⊢
      omega
    have h2 : ¬ (ne = zeroTime) := by
      intro hq
      rw [hq] at hzlt
      exact Bucket.lt_irrefl zeroTime hzlt
    simp [extendCheck, hregex, hp', hst, hne, hend, holdz, Bucket.before,
      hnotpast, hnotbefore, h1, h2]

/-- C9 amended witness: "garbage" parses to nothing and is replaced by the
zero time, and an extension over a stored end date "junk303" that fails to
parse succeeds, persisting ("06-2026", 20). -/
theorem claim_noSwallow_amended_witness :
    parseOrZero "garbage" = zeroTime
    ∧ extendCheck (Except.ok ⟨"Netflix", 10, "01-2026", some "junk303"⟩)
        ⟨2026, 1⟩ "06-2026" 20 = Except.ok ⟨"06-2026", 20⟩ :=
  ⟨(claim_noSwallow_amended "01-2026" "03-2026" ⟨2026, 1⟩ ⟨2026, 3⟩ []
      rfl rfl).2.1 "garbage" rfl,
    (claim_noSwallow_amended "01-2026" "03-2026" ⟨2026, 1⟩ ⟨2026, 3⟩ []
      rfl rfl).2.2 ⟨"Netflix", 10, "01-2026", some "junk303"⟩ ⟨2026, 1⟩
      ⟨2026, 1⟩ ⟨2026, 6⟩ "junk303" "06-2026" 20 rfl (by decide) rfl rfl rfl
      rfl (by decide) (by decide) (by decide)⟩

/-- C10: the boundary validator `isInvalidDate` returns `false` on the empty
string, so an empty date field passes the handler's format check; and the
service-level `Create` performs no date validation at all — its outcome is
unchanged under any replacement of the date fields — so a create request
with an empty start date and no end date passes every engine-level check
and is forwarded to storage. -/
theorem claim_emptyDate (sub : Sub) (hstart : sub.startDate = "")
    (hend : sub.endDate = none) (hp : 0 ≤ sub.price) (id : Int) :
    isInvalidDate "" = false
    ∧ (∀ (er : Except Unit Bool) (cr : Except Unit Int) (sd : String)
        (ed : Option String),
        create er cr { sub with startDate := sd, endDate := ed } =
          create er cr sub)
    ∧ create (Except.ok false) (Except.ok id) sub =
        (Except.ok id, [RepoCall.existsCall, RepoCall.createCall]) := by
  refine ⟨rfl, ?_, ?_⟩
  · intro er cr sd ed
    rfl
  · have h' : ¬ sub.price < 0 := by omega
    simp [create, h']

/-- C10 witness: a subscription with empty start date, no end date and price
100 is forwarded to storage and gets the assigned id 5. -/
theorem claim_emptyDate_witness :
    create (Except.ok false) (Except.ok 5) ⟨"Netflix", 100, "", none⟩ =
      (Except.ok 5, [RepoCall.existsCall, RepoCall.createCall]) :=
  (claim_emptyDate ⟨"Netflix", 100, "", none⟩ rfl rfl (by decide) 5).2.2

end EffectiveTask
